import Mathlib

/-!
Verification of the nextauth-app authentication layer.

The definitions below are a shallow embedding of the TypeScript source:
* `formatPhoneNumber` and its helpers embed the phone normalization of
  `src/lib/enhanced-auth.ts` (also duplicated in `src/lib/auth.ts`);
* `UserRecord`, `ActivityEvent`, `AuthOutcome` model the Mongo `users`
  documents, the `ActivityTracker` audit records and the three possible
  results of a NextAuth `authorize` callback (returned user, returned
  `null`, thrown `Error(message)`);
* `authorizeCredentials` embeds the credentials-provider `authorize` of
  `src/lib/enhanced-auth.ts`, `authorizePhone` the phone provider, and
  `signInCallback` the `signIn` callback of the same file;
* `authorizeCredentialsBasic` embeds the credentials-provider `authorize`
  of `src/lib/auth.ts`;
* `insertUser` models a document insert under the unique indexes created
  by `setupDatabaseIndexes` (scripts/setup-database-indexes.js).

External primitives (bcrypt compare, speakeasy TOTP verify, Twilio code
check) are parameters of the embedded functions; JavaScript string/array
idioms (falsiness, `Array.includes`, `new Set`, `$pull`) are embedded by
small helper functions next to their first use.
-/

/-- `s.toLowerCase()`, computed on the character list. -/
def lowerStr (s : String) : String :=
  String.mk (s.data.map Char.toLower)

/-- `s.toUpperCase()`, computed on the character list. -/
def upperStr (s : String) : String :=
  String.mk (s.data.map Char.toUpper)

/-- JavaScript falsiness of an optional string credential or field:
`undefined`/missing and the empty string are falsy. -/
def jsFalsyOpt : Option String → Bool
  | none => true
  | some s => s == ""

/-- The `countryPrefixes` table of `formatPhoneNumber`
(`src/lib/enhanced-auth.ts`, lines 19-25). -/
def countryDialCodes : List (String × String) :=
  [("US", "+1"), ("CA", "+1"), ("GB", "+44"), ("IN", "+91"),
   ("AU", "+61"), ("DE", "+49"), ("FR", "+33"), ("JP", "+81"),
   ("BR", "+55"), ("MX", "+52"), ("IT", "+39"), ("ES", "+34"),
   ("NL", "+31"), ("SE", "+46"), ("NO", "+47"), ("DK", "+45"),
   ("FI", "+358"), ("PL", "+48"), ("CZ", "+420"), ("HU", "+36")]

/-- `countryPrefixes[countryCode] || '+1'`. -/
def dialCodeFor (countryCode : String) : String :=
  match countryDialCodes.find? (fun kv => kv.1 == countryCode) with
  | some kv => kv.2
  | none => "+1"

/-- `phoneNumber.replace(/\D/g, '')`: keep only the decimal digits. -/
def stripNonDigits (s : String) : String :=
  String.mk (s.data.filter Char.isDigit)

/-- `s.startsWith('+')`. -/
def startsWithPlus (s : String) : Bool :=
  s.data.head? == some '+'

/-- `s.startsWith('1')`. -/
def startsWithOne (s : String) : Bool :=
  s.data.head? == some '1'

/-- `s.substring(1)`. -/
def dropFirst (s : String) : String :=
  String.mk (s.data.drop 1)

/-- `formatPhoneNumber` of `src/lib/enhanced-auth.ts` lines 17-34 (the same
function is inlined in the phone provider of `src/lib/auth.ts`).  The
TypeScript default argument `countryCode = 'US'` is passed explicitly by
the callers embedded below. -/
def formatPhoneNumber (phoneNumber : String) (countryCode : String) : String :=
  let cleaned := stripNonDigits phoneNumber
  let pfx := dialCodeFor countryCode
  if startsWithPlus phoneNumber then
    phoneNumber
  else if (countryCode == "US" || countryCode == "CA") && startsWithOne cleaned then
    "+1" ++ dropFirst cleaned
  else
    pfx ++ cleaned

theorem dialCodeFor_starts_plus (c : String) :
    (dialCodeFor c).data.head? = some '+' := by
  unfold dialCodeFor
  cases h : countryDialCodes.find? (fun kv => kv.1 == c) with
  | none => rfl
  | some kv =>
      have hmem : kv ∈ countryDialCodes := List.mem_of_find?_eq_some h
      have hall : ∀ x ∈ countryDialCodes, x.2.data.head? = some '+' := by decide
      exact hall kv hmem

theorem string_data_append (a b : String) : (a ++ b).data = a.data ++ b.data := by
  cases a; cases b; rfl

theorem formatPhoneNumber_starts_plus (p c : String) :
    startsWithPlus (formatPhoneNumber p c) = true := by
  unfold formatPhoneNumber
  split
  · next h1 => exact h1
  · dsimp only
    split
    · unfold startsWithPlus
      rw [string_data_append]
      rfl
    · have hd := dialCodeFor_starts_plus c
      unfold startsWithPlus
      rw [string_data_append]
      cases hdc : (dialCodeFor c).data with
      | nil => rw [hdc] at hd; cases hd
      | cons x xs =>
          rw [hdc] at hd
          simp only [List.head?_cons, Option.some.injEq] at hd
          subst hd
          simp

theorem formatPhoneNumber_verbatim (p c : String) (h : startsWithPlus p = true) :
    formatPhoneNumber p c = p := by
  unfold formatPhoneNumber
  dsimp only
  rw [if_pos h]

theorem formatPhoneNumber_idem (p c : String) :
    formatPhoneNumber (formatPhoneNumber p c) c = formatPhoneNumber p c :=
  formatPhoneNumber_verbatim _ _ (formatPhoneNumber_starts_plus p c)

/-- C10: `formatPhoneNumber` always returns a string beginning with `+`; it
is idempotent for every phone number and country code; and any input that
already starts with `+` is returned verbatim, so a number normalized at
registration passes through unchanged at sign-in. -/
theorem C10_formatPhoneNumber_normalization (p c : String) :
    startsWithPlus (formatPhoneNumber p c) = true ∧
    formatPhoneNumber (formatPhoneNumber p c) c = formatPhoneNumber p c ∧
    (startsWithPlus p = true → formatPhoneNumber p c = p) :=
  ⟨formatPhoneNumber_starts_plus p c, formatPhoneNumber_idem p c,
   fun h => formatPhoneNumber_verbatim p c h⟩

/-- Concrete instance of C10 at the E.164 number `+15551234567` and at a
raw national number, evaluating the definition. -/
theorem C10_formatPhoneNumber_normalization_witness :
    startsWithPlus "+15551234567" = true ∧
    formatPhoneNumber "+15551234567" "US" = "+15551234567" ∧
    formatPhoneNumber (formatPhoneNumber "(555) 123-4567" "US") "US" =
      formatPhoneNumber "(555) 123-4567" "US" :=
  ⟨by decide,
   (C10_formatPhoneNumber_normalization "+15551234567" "US").2.2 (by decide),
   (C10_formatPhoneNumber_normalization "(555) 123-4567" "US").2.1⟩

/-- A document of the Mongo `users` collection, restricted to the fields the
authentication code reads or writes.  Optional fields model fields that may
be absent from the schemaless document. -/
structure UserRecord where
  id : Nat
  email : Option String
  phoneNumber : Option String
  name : String
  image : Option String
  avatarType : String
  password : Option String
  registerSource : String
  twoFactorEnabled : Bool
  twoFactorSecret : Option String
  backupCodes : List String
  linkedEmails : List String
  linkedPhones : List String
  linkedProviders : List String
  groupId : Option String
  accountStatus : String
  updatedAt : Nat
  lastSignIn : Nat
deriving DecidableEq, Repr

/-- One `ActivityTracker.track` call: subject id, event type, description. -/
structure ActivityEvent where
  subject : String
  eventType : String
  description : String
deriving DecidableEq, Repr

/-- The three observable results of a NextAuth `authorize` callback: a user
object is returned (authentication succeeded, carrying the principal's id),
`null` is returned (generic invalid-credential failure), or an `Error` with
a message is thrown. -/
inductive AuthOutcome where
  | success (userId : Nat)
  | nullResult
  | thrown (msg : String)
deriving DecidableEq, Repr

/-- Credentials of the `credentials` provider of `src/lib/enhanced-auth.ts`. -/
structure CredCredentials where
  email : Option String
  password : Option String
  twoFactorCode : Option String
deriving DecidableEq, Repr

/-- Credentials of the `phone` provider. -/
structure PhoneCredentials where
  phoneNumber : Option String
  code : Option String
deriving DecidableEq, Repr

/-- Modelled from the spec: `EnhancedAuthIntegration.authenticateUserWithGroup`
(imported by `src/lib/enhanced-auth.ts` from `./enhanced-auth-integration`,
a module not present under src/) looks up the active identity record by
email, case-insensitively (spec, Credential Verifier, password method). -/
def lookupUserByEmailCI (db : List UserRecord) (e : String) : Option UserRecord :=
  db.find? (fun u =>
    (u.email.map lowerStr == some (lowerStr e)) && u.accountStatus == "active")

/-- Modelled from the spec: the phone-number branch of
`EnhancedAuthIntegration.authenticateUserWithGroup` (module not present
under src/) looks up the active identity record by normalized phone. -/
def lookupUserByPhone (db : List UserRecord) (p : String) : Option UserRecord :=
  db.find? (fun u => (u.phoneNumber == some p) && u.accountStatus == "active")

/-- Modelled from the spec: `EnhancedAuthIntegration.updateUserActivity`
(module not present under src/) refreshes activity bookkeeping only; the
timestamps it touches are not read anywhere in the modelled code, so it is
the identity on the modelled store. -/
def updateUserActivity (db : List UserRecord) (_uid : Nat) : List UserRecord :=
  db

/-- The wrong-provider message thrown at `src/lib/enhanced-auth.ts` line 120
(and `src/lib/auth.ts` line 47). -/
def wrongProviderMsg (rs : String) : String :=
  "This email is registered with " ++ rs ++ ". Please use " ++ rs ++ " to sign in."

/-- An `auth_failed_login` activity event. -/
def failedLoginEvent (subject description : String) : ActivityEvent :=
  ⟨subject, "auth_failed_login", description⟩

/-- The `$pull` update of `src/lib/enhanced-auth.ts` lines 184-187: one
atomic store operation that removes every occurrence of `code` from the
`backupCodes` array of the document with id `uid`, and is a no-op when the
code is not present. -/
def pullBackupCode (db : List UserRecord) (uid : Nat) (code : String) : List UserRecord :=
  db.map fun r =>
    if r.id = uid then { r with backupCodes := r.backupCodes.filter (fun b => b ≠ code) }
    else r

/-- The `authorize` callback of the `credentials` provider of
`src/lib/enhanced-auth.ts` (lines 69-216).  `checkPw` stands for
`bcrypt.compare` and `totp` for `speakeasy.totp.verify` with the record's
secret.  Returns the outcome, the activity events tracked during the call,
and the resulting store. -/
def authorizeCredentials (checkPw : String → String → Bool)
    (totp : String → String → Bool) (db : List UserRecord)
    (c : CredCredentials) : AuthOutcome × List ActivityEvent × List UserRecord :=
  if jsFalsyOpt c.email || jsFalsyOpt c.password then
    (.nullResult, [], db)
  else
    let e := c.email.getD ""
    match lookupUserByEmailCI db e with
    | none =>
        (.nullResult, [failedLoginEvent e "Failed login attempt - user not found"], db)
    | some u =>
        if jsFalsyOpt u.password && (u.registerSource != "credentials") then
          (.thrown (wrongProviderMsg u.registerSource),
           [failedLoginEvent (toString u.id)
             ("Failed login attempt - registered with " ++ u.registerSource)], db)
        else if jsFalsyOpt u.password then
          (.nullResult,
           [failedLoginEvent (toString u.id) "Failed login attempt - no password set"], db)
        else if !(checkPw (c.password.getD "") (u.password.getD "")) then
          (.nullResult,
           [failedLoginEvent (toString u.id) "Failed login attempt - invalid password"], db)
        else if u.twoFactorEnabled && !(jsFalsyOpt u.twoFactorSecret) then
          if jsFalsyOpt c.twoFactorCode then
            (.thrown "2FA_REQUIRED", [], db)
          else
            let tc := c.twoFactorCode.getD ""
            if totp (u.twoFactorSecret.getD "") tc then
              (.success u.id, [], updateUserActivity db u.id)
            else if u.backupCodes.contains (upperStr tc) then
              (.success u.id, [],
               updateUserActivity (pullBackupCode db u.id (upperStr tc)) u.id)
            else
              (.thrown "Invalid 2FA code", [], db)
        else
          (.success u.id, [], updateUserActivity db u.id)

/-- The `verifyCode` collaborator used by the phone provider checks the
supplied SMS code against the formatted phone number; it is a parameter of
`authorizePhone`.  The `authorize` callback of the `phone` provider of
`src/lib/enhanced-auth.ts` (lines 225-298). -/
def authorizePhone (verify : String → String → Bool) (db : List UserRecord)
    (c : PhoneCredentials) : AuthOutcome × List ActivityEvent × List UserRecord :=
  if jsFalsyOpt c.phoneNumber || jsFalsyOpt c.code then
    (.nullResult, [], db)
  else
    let fp := formatPhoneNumber (c.phoneNumber.getD "") "US"
    match lookupUserByPhone db fp with
    | none =>
        (.nullResult,
         [failedLoginEvent fp "Failed phone login attempt - user not found"], db)
    | some u =>
        if verify fp (c.code.getD "") then
          (.success u.id, [], updateUserActivity db u.id)
        else
          (.thrown "Invalid or expired login code",
           [failedLoginEvent (toString u.id) "Failed phone login attempt - invalid code"], db)

/-- `users.findOne({ email: x })`: MongoDB matches the field by exact
(binary) equality, since neither the query nor the collection carries a
collation; the case-insensitive collation of `unique_email_idx` applies
only to the uniqueness constraint, not to queries issued without it.  Used
by the `authorize` of `src/lib/auth.ts` (line 39) and by the `signIn`
callback of `src/lib/enhanced-auth.ts` (line 313). -/
def findOneByEmail (db : List UserRecord) (e : String) : Option UserRecord :=
  db.find? (fun u => u.email == some e)

/-- Credentials of the `credentials` provider of `src/lib/auth.ts` (which
has no 2FA field). -/
structure BasicCredentials where
  email : Option String
  password : Option String
deriving DecidableEq, Repr

/-- The `authorize` callback of the `credentials` provider of
`src/lib/auth.ts` (lines 31-68); it tracks no activity events and does not
support 2FA.  `checkPw` stands for `bcrypt.compare`. -/
def authorizeCredentialsBasic (checkPw : String → String → Bool)
    (db : List UserRecord) (c : BasicCredentials) : AuthOutcome :=
  if jsFalsyOpt c.email || jsFalsyOpt c.password then
    .nullResult
  else
    match findOneByEmail db (c.email.getD "") with
    | none => .nullResult
    | some u =>
        if jsFalsyOpt u.password && (u.registerSource != "credentials") then
          .thrown (wrongProviderMsg u.registerSource)
        else if jsFalsyOpt u.password then
          .nullResult
        else if checkPw (c.password.getD "") (u.password.getD "") then
          .success u.id
        else
          .nullResult

/-- One insertion step of the JavaScript `new Set` constructor (which keeps
the first occurrence of each element, in insertion order). -/
def jsSetInsert (acc : List String) (x : String) : List String :=
  if x ∈ acc then acc else acc ++ [x]

/-- The update expression `[...new Set([...existing.linkedProviders,
account.provider])]` of `src/lib/enhanced-auth.ts` lines 320-322. -/
def jsSetAdd (l : List String) (p : String) : List String :=
  (l ++ [p]).foldl jsSetInsert []

/-- The profile object the `signIn` callback receives for an OAuth user. -/
structure OAuthSignInUser where
  email : String
  name : String
  image : Option String
deriving DecidableEq, Repr

/-- The `signIn` callback of `src/lib/enhanced-auth.ts` (lines 305-400),
for one OAuth or credentials sign-in.  `linkNewOAuth` stands for
`EnhancedAccountLinkingService.linkOAuthAccount` (module not present under
src/), invoked only on the new-user branch; it returns the new store and
the new principal id, or `none` on failure.  Result: whether sign-in is
allowed, the resulting store, the principal id assigned to the session
(when the callback sets `user.id`), and the tracked activity events. -/
def signInCallback
    (linkNewOAuth : List UserRecord → OAuthSignInUser → String → String →
      Option (List UserRecord × Nat))
    (now : Nat) (db : List UserRecord) (u : OAuthSignInUser)
    (provider providerAccountId : String) :
    Bool × List UserRecord × Option Nat × List ActivityEvent :=
  if provider == "google" || provider == "github" then
    match findOneByEmail db u.email with
    | some ex =>
        let newProviders := jsSetAdd ex.linkedProviders provider
        let db' := db.map fun r =>
          if r.id = ex.id then
            { r with
              linkedProviders := newProviders
              updatedAt := now
              lastSignIn := now
              image := if ex.avatarType == "default" && !(jsFalsyOpt u.image) then u.image
                       else r.image
              avatarType := if ex.avatarType == "default" && !(jsFalsyOpt u.image) then "oauth"
                            else r.avatarType }
          else r
        (true, db', some ex.id,
         [⟨toString ex.id, "security_oauth_added", "Linked " ++ provider ++ " account"⟩,
          ⟨toString ex.id, "auth_signin", "Successful sign in with " ++ provider⟩])
    | none =>
        match linkNewOAuth db u provider providerAccountId with
        | none => (false, db, none, [])
        | some (db', uid) =>
            (true, db', some uid,
             [⟨toString uid, "auth_signin", "Successful sign in with " ++ provider⟩])
  else
    (true, db, none, [])

/-- A conflict under `unique_email_idx` (unique, sparse, collation
strength 2): both documents carry an email and the emails agree up to
case. -/
def emailConflictB (a b : UserRecord) : Bool :=
  match a.email, b.email with
  | some x, some y => lowerStr x == lowerStr y
  | _, _ => false

/-- A conflict under `unique_phone_idx` (unique, sparse): both documents
carry a phone number and the numbers are equal. -/
def phoneConflictB (a b : UserRecord) : Bool :=
  match a.phoneNumber, b.phoneNumber with
  | some x, some y => x == y
  | _, _ => false

/-- A document insert into the `users` collection under the unique indexes
created by `setupDatabaseIndexes` (scripts/setup-database-indexes.js,
`unique_email_idx` and `unique_phone_idx`): the insert is rejected with a
duplicate-key error when any existing document conflicts on email
(case-insensitively) or on phone number. -/
def insertUser (db : List UserRecord) (r : UserRecord) : Option (List UserRecord) :=
  if db.any (fun x => emailConflictB x r || phoneConflictB x r) then none
  else some (db ++ [r])

/-- The store-layer uniqueness invariant the indexes enforce: no two
distinct documents conflict on email (case-insensitively) or on phone. -/
def uniqueIdentifiers (db : List UserRecord) : Prop :=
  db.Pairwise (fun a b => emailConflictB a b = false ∧ phoneConflictB a b = false)

/-- Sample password check: accepts exactly the pair of plaintext `pw` and
stored hash `h1`. -/
def cpSample : String → String → Bool := fun p h => p == "pw" && h == "h1"

/-- Sample TOTP verifier: accepts exactly the token `123456`. -/
def totpSample : String → String → Bool := fun _ t => t == "123456"

/-- Sample 2FA-enabled identity record used to instantiate the theorems. -/
def userSample : UserRecord :=
  { id := 1
    email := some "a@x.com"
    phoneNumber := some "+15551234567"
    name := "A"
    image := none
    avatarType := "default"
    password := some "h1"
    registerSource := "credentials"
    twoFactorEnabled := true
    twoFactorSecret := some "SECRETBASE32"
    backupCodes := ["ABCD1234", "EFGH5678"]
    linkedEmails := []
    linkedPhones := []
    linkedProviders := []
    groupId := none
    accountStatus := "active"
    updatedAt := 0
    lastSignIn := 0 }

/-- C3: for a two-factor-enabled record with a correct password, a sign-in
that supplies no 2FA code at all fails by throwing the distinct
`2FA_REQUIRED` error, not by returning `null` (the generic
invalid-credential failure) and not with the invalid-2FA-code error. -/
theorem C3_missing_code_two_factor_required
    (cp totp : String → String → Bool) (db : List UserRecord)
    (c : CredCredentials) (e pw : String) (u : UserRecord) (hash s : String)
    (he : c.email = some e) (he' : e ≠ "")
    (hp : c.password = some pw) (hp' : pw ≠ "")
    (hu : lookupUserByEmailCI db e = some u)
    (hhash : u.password = some hash) (hhash' : hash ≠ "")
    (hcp : cp pw hash = true)
    (h2f : u.twoFactorEnabled = true)
    (hsec : u.twoFactorSecret = some s) (hs' : s ≠ "")
    (hcode : c.twoFactorCode = none) :
    authorizeCredentials cp totp db c = (.thrown "2FA_REQUIRED", [], db) ∧
    AuthOutcome.thrown "2FA_REQUIRED" ≠ .nullResult ∧
    AuthOutcome.thrown "2FA_REQUIRED" ≠ .thrown "Invalid 2FA code" := by
  refine ⟨?_, by simp, by simp⟩
  simp [authorizeCredentials, jsFalsyOpt, he, hp, hu, hhash, h2f, hsec, hcode,
    he', hp', hhash', hs', hcp]

/-- Concrete instance of C3: correct password, 2FA enabled, no code
supplied. -/
theorem C3_missing_code_two_factor_required_witness :
    authorizeCredentials cpSample totpSample [userSample]
      ⟨some "a@x.com", some "pw", none⟩ =
      (.thrown "2FA_REQUIRED", [], [userSample]) :=
  (C3_missing_code_two_factor_required cpSample totpSample [userSample]
    ⟨some "a@x.com", some "pw", none⟩ "a@x.com" "pw" userSample "h1" "SECRETBASE32"
    rfl (by decide) rfl (by decide) (by decide) rfl (by decide) (by decide)
    rfl rfl (by decide) rfl).1

/-- C1: for a two-factor-enabled record with a correct password and a
supplied 2FA code, authentication succeeds if and only if the code passes
TOTP verification or its uppercased form is among the stored backup codes;
when it passes neither check the call fails by throwing the distinct
`Invalid 2FA code` error, not the generic `null` failure. -/
theorem C1_two_factor_code_check
    (cp totp : String → String → Bool) (db : List UserRecord)
    (c : CredCredentials) (e pw : String) (u : UserRecord) (hash s tc : String)
    (he : c.email = some e) (he' : e ≠ "")
    (hp : c.password = some pw) (hp' : pw ≠ "")
    (hu : lookupUserByEmailCI db e = some u)
    (hhash : u.password = some hash) (hhash' : hash ≠ "")
    (hcp : cp pw hash = true)
    (h2f : u.twoFactorEnabled = true)
    (hsec : u.twoFactorSecret = some s) (hs' : s ≠ "")
    (htc : c.twoFactorCode = some tc) (htc' : tc ≠ "") :
    ((authorizeCredentials cp totp db c).1 = .success u.id ↔
      (totp s tc = true ∨ u.backupCodes.contains (upperStr tc) = true)) ∧
    (totp s tc = false → u.backupCodes.contains (upperStr tc) = false →
      (authorizeCredentials cp totp db c).1 = .thrown "Invalid 2FA code" ∧
      (authorizeCredentials cp totp db c).1 ≠ .nullResult) := by
  have hbase : authorizeCredentials cp totp db c =
      (if totp s tc then (.success u.id, [], updateUserActivity db u.id)
       else if u.backupCodes.contains (upperStr tc) then
         (.success u.id, [], updateUserActivity (pullBackupCode db u.id (upperStr tc)) u.id)
       else (.thrown "Invalid 2FA code", [], db)) := by
    simp [authorizeCredentials, jsFalsyOpt, he, hp, hu, hhash, h2f, hsec, htc,
      he', hp', hhash', hs', hcp, htc']
  rw [hbase]
  cases hT : totp s tc <;> cases hB : u.backupCodes.contains (upperStr tc) <;>
    simp [hT, hB]

/-- Concrete instance of C1: a valid backup code authenticates (lowercased
input matches the uppercased stored code), and an invalid code fails with
the `Invalid 2FA code` error. -/
theorem C1_two_factor_code_check_witness :
    ((authorizeCredentials cpSample totpSample [userSample]
        ⟨some "a@x.com", some "pw", some "abcd1234"⟩).1 = .success 1 ↔
      (totpSample "SECRETBASE32" "abcd1234" = true ∨
        userSample.backupCodes.contains (upperStr "abcd1234") = true)) ∧
    (authorizeCredentials cpSample totpSample [userSample]
        ⟨some "a@x.com", some "pw", some "zz"⟩).1 = .thrown "Invalid 2FA code" :=
  ⟨(C1_two_factor_code_check cpSample totpSample [userSample]
      ⟨some "a@x.com", some "pw", some "abcd1234"⟩ "a@x.com" "pw" userSample
      "h1" "SECRETBASE32" "abcd1234" rfl (by decide) rfl (by decide) (by decide)
      rfl (by decide) (by decide) rfl rfl (by decide) rfl (by decide)).1,
   ((C1_two_factor_code_check cpSample totpSample [userSample]
      ⟨some "a@x.com", some "pw", some "zz"⟩ "a@x.com" "pw" userSample
      "h1" "SECRETBASE32" "zz" rfl (by decide) rfl (by decide) (by decide)
      rfl (by decide) (by decide) rfl rfl (by decide) rfl (by decide)).2
      (by decide) (by decide)).1⟩

theorem contains_filter_ne (l : List String) (code : String) :
    (l.filter (fun b => b ≠ code)).contains code = false := by
  induction l with
  | nil => rfl
  | cons a as ih =>
      by_cases h : a = code
      · simp only [List.filter_cons]
        simp [h, ih]
      · simp only [List.filter_cons]
        simp [h, ih]
        exact fun hc => h hc.symm

theorem lookup_pullBackupCode (db : List UserRecord) (uid : Nat) (code e : String) :
    lookupUserByEmailCI (pullBackupCode db uid code) e =
      (lookupUserByEmailCI db e).map
        (fun r => if r.id = uid then
            { r with backupCodes := r.backupCodes.filter (fun b => b ≠ code) }
          else r) := by
  unfold lookupUserByEmailCI pullBackupCode
  rw [List.find?_map]
  have hp : ((fun u : UserRecord =>
        (u.email.map lowerStr == some (lowerStr e)) && u.accountStatus == "active") ∘
      (fun r : UserRecord => if r.id = uid then
          { r with backupCodes := r.backupCodes.filter (fun b => b ≠ code) }
        else r)) =
      (fun u : UserRecord =>
        (u.email.map lowerStr == some (lowerStr e)) && u.accountStatus == "active") := by
    funext x
    by_cases h : x.id = uid <;> simp [h]
  rw [hp]

/-- C2: when password authentication for a two-factor-enabled record
succeeds via a backup code (TOTP failed, the uppercased supplied code is
among the stored backup codes), the matched code is removed from the
record's backup-code list by the single atomic remove-if-present update
`pullBackupCode` before success is returned: the list afterwards no longer
contains the code, and replaying the same credentials against the updated
store fails with the `Invalid 2FA code` error. -/
theorem C2_backup_code_consumed
    (cp totp : String → String → Bool) (db : List UserRecord)
    (c : CredCredentials) (e pw : String) (u : UserRecord) (hash s tc : String)
    (he : c.email = some e) (he' : e ≠ "")
    (hp : c.password = some pw) (hp' : pw ≠ "")
    (hu : lookupUserByEmailCI db e = some u)
    (hhash : u.password = some hash) (hhash' : hash ≠ "")
    (hcp : cp pw hash = true)
    (h2f : u.twoFactorEnabled = true)
    (hsec : u.twoFactorSecret = some s) (hs' : s ≠ "")
    (htc : c.twoFactorCode = some tc) (htc' : tc ≠ "")
    (hT : totp s tc = false)
    (hB : u.backupCodes.contains (upperStr tc) = true) :
    authorizeCredentials cp totp db c =
      (.success u.id, [], pullBackupCode db u.id (upperStr tc)) ∧
    (∀ r ∈ pullBackupCode db u.id (upperStr tc), r.id = u.id →
      r.backupCodes.contains (upperStr tc) = false) ∧
    (authorizeCredentials cp totp (pullBackupCode db u.id (upperStr tc)) c).1 =
      .thrown "Invalid 2FA code" := by
  have hB' : upperStr tc ∈ u.backupCodes := by simpa using hB
  refine ⟨?_, ?_, ?_⟩
  · simp [authorizeCredentials, jsFalsyOpt, he, hp, hu, hhash, h2f, hsec, htc,
      he', hp', hhash', hs', hcp, htc', hT, hB', updateUserActivity]
  · intro r hr hid
    unfold pullBackupCode at hr
    obtain ⟨r₀, _hr₀, rfl⟩ := List.mem_map.mp hr
    by_cases h : r₀.id = u.id
    · simp only [h, if_true]
      exact contains_filter_ne _ _
    · rw [if_neg h] at hid
      exact absurd hid h
  · have hlk := lookup_pullBackupCode db u.id (upperStr tc) e
    rw [hu] at hlk
    simp at hlk
    have hnc : ¬ (upperStr tc ∈
        u.backupCodes.filter (fun b => b ≠ upperStr tc)) := by
      simp
    simp [authorizeCredentials, jsFalsyOpt, he, hp, hlk, hhash, h2f, hsec, htc,
      he', hp', hhash', hs', hcp, htc', hT, hnc]

/-- Concrete instance of C2: backup code `abcd1234` authenticates once,
is removed from the stored list, and is rejected on replay. -/
theorem C2_backup_code_consumed_witness :
    authorizeCredentials cpSample totpSample [userSample]
      ⟨some "a@x.com", some "pw", some "abcd1234"⟩ =
      (.success 1, [], pullBackupCode [userSample] 1 (upperStr "abcd1234")) ∧
    (authorizeCredentials cpSample totpSample
      (pullBackupCode [userSample] 1 (upperStr "abcd1234"))
      ⟨some "a@x.com", some "pw", some "abcd1234"⟩).1 = .thrown "Invalid 2FA code" := by
  have h := C2_backup_code_consumed cpSample totpSample [userSample]
    ⟨some "a@x.com", some "pw", some "abcd1234"⟩ "a@x.com" "pw" userSample
    "h1" "SECRETBASE32" "abcd1234" rfl (by decide) rfl (by decide) (by decide)
    rfl (by decide) (by decide) rfl rfl (by decide) rfl (by decide)
    (by decide) (by decide)
  exact ⟨h.1, h.2.2⟩

theorem string_append_assoc (a b c : String) : (a ++ b) ++ c = a ++ (b ++ c) := by
  cases a with
  | mk x =>
      cases b with
      | mk y =>
          cases c with
          | mk z =>
              show String.mk ((x ++ y) ++ z) = String.mk (x ++ (y ++ z))
              rw [List.append_assoc]

/-- C4: a password-method sign-in against a record with no password hash
whose registration origin was an OAuth provider fails by throwing the
wrong-provider error, whose message names that provider, rather than by the
generic `null` failure. -/
theorem C4_wrong_provider_names_provider
    (cp totp : String → String → Bool) (db : List UserRecord)
    (c : CredCredentials) (e pw : String) (u : UserRecord)
    (he : c.email = some e) (he' : e ≠ "")
    (hp : c.password = some pw) (hp' : pw ≠ "")
    (hu : lookupUserByEmailCI db e = some u)
    (hnopw : u.password = none)
    (hoauth : u.registerSource = "google" ∨ u.registerSource = "github") :
    (authorizeCredentials cp totp db c).1 = .thrown (wrongProviderMsg u.registerSource) ∧
    (∃ pre post, wrongProviderMsg u.registerSource = pre ++ u.registerSource ++ post) ∧
    (authorizeCredentials cp totp db c).1 ≠ .nullResult := by
  have hrs : (u.registerSource != "credentials") = true := by
    rcases hoauth with h | h <;> rw [h] <;> decide
  have h1 : (authorizeCredentials cp totp db c).1 =
      .thrown (wrongProviderMsg u.registerSource) := by
    simp [authorizeCredentials, jsFalsyOpt, he, hp, hu, hnopw, hrs, he', hp']
  refine ⟨h1, ⟨"This email is registered with ",
    ". Please use " ++ u.registerSource ++ " to sign in.", ?_⟩, by rw [h1]; simp⟩
  simp [wrongProviderMsg, string_append_assoc]

/-- Concrete instance of C4: a record registered via Google with no
password hash. -/
def oauthUserSample : UserRecord :=
  { userSample with
    id := 2
    email := some "o@x.com"
    phoneNumber := none
    password := none
    registerSource := "google"
    twoFactorEnabled := false
    twoFactorSecret := none }

theorem C4_wrong_provider_names_provider_witness :
    (authorizeCredentials cpSample totpSample [oauthUserSample]
      ⟨some "o@x.com", some "pw", none⟩).1 = .thrown (wrongProviderMsg "google") ∧
    (∃ pre post, wrongProviderMsg "google" = pre ++ "google" ++ post) := by
  have h := C4_wrong_provider_names_provider cpSample totpSample [oauthUserSample]
    ⟨some "o@x.com", some "pw", none⟩ "o@x.com" "pw" oauthUserSample
    rfl (by decide) rfl (by decide) (by decide) rfl (Or.inl rfl)
  exact ⟨h.1, h.2.1⟩

/-- Sample SMS code verifier: accepts exactly the code `000111`. -/
def verifySample : String → String → Bool := fun _ code => code == "000111"

/-- C9: when a required credential field is missing (email or password for
the password method, phone number or code for the phone method) the
`authorize` callback returns `null` immediately: no activity event is
recorded and the store is returned unchanged. -/
theorem C9_missing_credentials_no_side_effects
    (cp totp verify : String → String → Bool) (db : List UserRecord)
    (c : CredCredentials) (p : PhoneCredentials)
    (hc : (jsFalsyOpt c.email || jsFalsyOpt c.password) = true)
    (hp : (jsFalsyOpt p.phoneNumber || jsFalsyOpt p.code) = true) :
    authorizeCredentials cp totp db c = (.nullResult, [], db) ∧
    authorizePhone verify db p = (.nullResult, [], db) := by
  constructor
  · simp [authorizeCredentials, hc]
  · simp [authorizePhone, hp]

/-- Concrete instance of C9: missing password and missing SMS code. -/
theorem C9_missing_credentials_no_side_effects_witness :
    authorizeCredentials cpSample totpSample [userSample]
      ⟨some "a@x.com", none, none⟩ = (.nullResult, [], [userSample]) ∧
    authorizePhone verifySample [userSample]
      ⟨some "+15551234567", none⟩ = (.nullResult, [], [userSample]) :=
  C9_missing_credentials_no_side_effects cpSample totpSample verifySample
    [userSample] ⟨some "a@x.com", none, none⟩ ⟨some "+15551234567", none⟩
    (by decide) (by decide)

/-- C7 counterexample: a password sign-in with a correct password against a
two-factor-enabled record fails (missing 2FA code, respectively invalid
2FA code), yet the list of recorded activity events is empty, so these two
password-method authentication failures are returned without recording any
security activity event. -/
theorem C7_two_factor_failures_not_logged_counterexample :
    (authorizeCredentials cpSample totpSample [userSample]
      ⟨some "a@x.com", some "pw", none⟩).1 = .thrown "2FA_REQUIRED" ∧
    (authorizeCredentials cpSample totpSample [userSample]
      ⟨some "a@x.com", some "pw", none⟩).2.1 = [] ∧
    (authorizeCredentials cpSample totpSample [userSample]
      ⟨some "a@x.com", some "pw", some "zz"⟩).1 = .thrown "Invalid 2FA code" ∧
    (authorizeCredentials cpSample totpSample [userSample]
      ⟨some "a@x.com", some "pw", some "zz"⟩).2.1 = [] := by
  refine ⟨by decide, by decide, by decide, by decide⟩

/-- C7 amended: of the password-method authentication failures, the
user-not-found, wrong-provider, no-password and invalid-password failures
each record exactly one activity event before the failure is returned,
while the missing-2FA-code (`2FA_REQUIRED`) and invalid-2FA-code failures
are returned without recording any activity event. -/
theorem C7_amended_failure_logging
    (cp totp : String → String → Bool) (db : List UserRecord)
    (c : CredCredentials) (e pw : String)
    (he : c.email = some e) (he' : e ≠ "")
    (hp : c.password = some pw) (hp' : pw ≠ "") :
    (lookupUserByEmailCI db e = none →
      (authorizeCredentials cp totp db c).2.1 =
        [failedLoginEvent e "Failed login attempt - user not found"]) ∧
    (∀ u, lookupUserByEmailCI db e = some u →
      jsFalsyOpt u.password = true → (u.registerSource != "credentials") = true →
      (authorizeCredentials cp totp db c).2.1 =
        [failedLoginEvent (toString u.id)
          ("Failed login attempt - registered with " ++ u.registerSource)]) ∧
    (∀ u, lookupUserByEmailCI db e = some u →
      jsFalsyOpt u.password = true → (u.registerSource != "credentials") = false →
      (authorizeCredentials cp totp db c).2.1 =
        [failedLoginEvent (toString u.id) "Failed login attempt - no password set"]) ∧
    (∀ u hash, lookupUserByEmailCI db e = some u →
      u.password = some hash → hash ≠ "" → cp pw hash = false →
      (authorizeCredentials cp totp db c).2.1 =
        [failedLoginEvent (toString u.id) "Failed login attempt - invalid password"]) ∧
    (∀ u hash s, lookupUserByEmailCI db e = some u →
      u.password = some hash → hash ≠ "" → cp pw hash = true →
      u.twoFactorEnabled = true → u.twoFactorSecret = some s → s ≠ "" →
      jsFalsyOpt c.twoFactorCode = true →
      (authorizeCredentials cp totp db c).2.1 = []) ∧
    (∀ u hash s tc, lookupUserByEmailCI db e = some u →
      u.password = some hash → hash ≠ "" → cp pw hash = true →
      u.twoFactorEnabled = true → u.twoFactorSecret = some s → s ≠ "" →
      c.twoFactorCode = some tc → tc ≠ "" → totp s tc = false →
      u.backupCodes.contains (upperStr tc) = false →
      (authorizeCredentials cp totp db c).2.1 = []) := by
  refine ⟨?_, ?_, ?_, ?_, ?_, ?_⟩
  · intro hn
    simp [authorizeCredentials, jsFalsyOpt, he, hp, he', hp', hn]
  · intro u hu hnopw hrs
    cases hpw : u.password with
    | none =>
        simp [authorizeCredentials, jsFalsyOpt, he, hp, he', hp', hu, hpw, hrs]
    | some s =>
        have hs0 : s = "" := by
          rw [hpw] at hnopw
          simpa [jsFalsyOpt] using hnopw
        subst hs0
        simp [authorizeCredentials, jsFalsyOpt, he, hp, he', hp', hu, hpw, hrs]
  · intro u hu hnopw hrs
    cases hpw : u.password with
    | none =>
        simp [authorizeCredentials, jsFalsyOpt, he, hp, he', hp', hu, hpw, hrs]
    | some s =>
        have hs0 : s = "" := by
          rw [hpw] at hnopw
          simpa [jsFalsyOpt] using hnopw
        subst hs0
        simp [authorizeCredentials, jsFalsyOpt, he, hp, he', hp', hu, hpw, hrs]
  · intro u hash hu hhash hhash' hcp
    simp [authorizeCredentials, jsFalsyOpt, he, hp, he', hp', hu, hhash, hhash', hcp]
  · intro u hash s hu hhash hhash' hcp h2f hsec hs' hcode
    cases htfc : c.twoFactorCode with
    | none =>
        simp [authorizeCredentials, jsFalsyOpt, he, hp, he', hp', hu, hhash, hhash',
          hcp, h2f, hsec, hs', htfc]
    | some t =>
        have ht0 : t = "" := by
          rw [htfc] at hcode
          simpa [jsFalsyOpt] using hcode
        subst ht0
        simp [authorizeCredentials, jsFalsyOpt, he, hp, he', hp', hu, hhash, hhash',
          hcp, h2f, hsec, hs', htfc]
  · intro u hash s tc hu hhash hhash' hcp h2f hsec hs' htc htc' hT hB
    have hB' : ¬ (upperStr tc ∈ u.backupCodes) := by simpa using hB
    simp [authorizeCredentials, jsFalsyOpt, he, hp, he', hp', hu, hhash, hhash',
      hcp, h2f, hsec, hs', htc, htc', hT, hB']

/-- Concrete instance of the C7 amended claim: a user-not-found failure
records exactly one activity event. -/
theorem C7_amended_failure_logging_witness :
    (authorizeCredentials cpSample totpSample []
      ⟨some "a@x.com", some "pw", none⟩).2.1 =
      [failedLoginEvent "a@x.com" "Failed login attempt - user not found"] :=
  (C7_amended_failure_logging cpSample totpSample []
    ⟨some "a@x.com", some "pw", none⟩ "a@x.com" "pw"
    rfl (by decide) rfl (by decide)).1 rfl

/-- A record whose stored email carries an upper-case letter. -/
def caseUserSample : UserRecord :=
  { userSample with
    id := 3
    email := some "A@x.com"
    phoneNumber := none
    twoFactorEnabled := false
    twoFactorSecret := none }

/-- C8 counterexample: `users.findOne({ email })` matches by exact string
equality, so against a record stored with email `A@x.com` the sign-in
attempt supplying `a@x.com` (same email up to letter case, correct
password) is not found and fails with the generic `null` result, while the
attempt supplying `A@x.com` succeeds — refuting that the lookup is
case-insensitive. -/
theorem C8_case_insensitive_lookup_counterexample :
    findOneByEmail [caseUserSample] "a@x.com" = none ∧
    authorizeCredentialsBasic cpSample [caseUserSample]
      ⟨some "a@x.com", some "pw"⟩ = .nullResult ∧
    authorizeCredentialsBasic cpSample [caseUserSample]
      ⟨some "A@x.com", some "pw"⟩ = .success 3 := by
  refine ⟨by decide, by decide, by decide⟩

/-- C8 amended: the password sign-in of `src/lib/auth.ts` looks the record
up by exact, case-sensitive email equality: whenever the lookup returns a
record, that record's stored email is byte-for-byte equal to the supplied
one (emails differing only in case resolve to the same record only when
they are identical). -/
theorem C8_amended_exact_email_lookup (db : List UserRecord) (e : String)
    (u : UserRecord) (h : findOneByEmail db e = some u) :
    u.email = some e ∧ u ∈ db := by
  unfold findOneByEmail at h
  have h1 := List.find?_some h
  have h2 := List.mem_of_find?_eq_some h
  exact ⟨by simpa using h1, h2⟩

/-- Concrete instance of the C8 amended claim. -/
theorem C8_amended_exact_email_lookup_witness :
    caseUserSample.email = some "A@x.com" ∧ caseUserSample ∈ [caseUserSample] :=
  C8_amended_exact_email_lookup [caseUserSample] "A@x.com" caseUserSample rfl

theorem foldl_jsSetInsert (l : List String) : ∀ acc, (acc ++ l).Nodup →
    l.foldl jsSetInsert acc = acc ++ l := by
  induction l with
  | nil => intro acc _; simp
  | cons x xs ih =>
      intro acc h
      obtain ⟨h1, h2, hd⟩ := List.nodup_append.mp h
      have hx : x ∉ acc := fun hm => (hd hm) (List.mem_cons_self x xs)
      have hstep : jsSetInsert acc x = acc ++ [x] := by
        unfold jsSetInsert
        rw [if_neg hx]
      have hnd2 : ((acc ++ [x]) ++ xs).Nodup := by
        rw [List.append_assoc]
        simpa using h
      simp only [List.foldl_cons, hstep]
      rw [ih (acc ++ [x]) hnd2, List.append_assoc]
      simp

theorem jsSetAdd_eq (l : List String) (p : String) (h : l.Nodup) :
    jsSetAdd l p = if p ∈ l then l else l ++ [p] := by
  unfold jsSetAdd
  rw [List.foldl_append]
  have h0 : l.foldl jsSetInsert [] = l := by
    have hf := foldl_jsSetInsert l [] (by simpa using h)
    simpa using hf
  rw [h0]
  simp only [List.foldl_cons, List.foldl_nil]
  unfold jsSetInsert
  rfl

theorem jsSetAdd_count (l : List String) (p : String) (h : l.Nodup) :
    (jsSetAdd l p).count p = 1 := by
  rw [jsSetAdd_eq l p h]
  by_cases hm : p ∈ l
  · rw [if_pos hm]
    exact List.count_eq_one_of_mem h hm
  · rw [if_neg hm]
    rw [List.count_append]
    rw [List.count_eq_zero_of_not_mem hm]
    simp

/-- C6: on an OAuth sign-in whose email exactly matches an existing
identity record, no new record is created and no group merge happens: the
store keeps the same record ids and the same groupIds, the matched
record's `linkedProviders` is extended by set union with the signing-in
provider (appearing exactly once afterwards, and the list is unchanged if
the provider was already linked), every other record is untouched, and the
session principal is the existing record's id. -/
theorem C6_oauth_existing_email_extends_providers
    (linkNew : List UserRecord → OAuthSignInUser → String → String →
      Option (List UserRecord × Nat))
    (now : Nat) (db : List UserRecord) (u : OAuthSignInUser)
    (provider pid : String) (ex : UserRecord)
    (hprov : provider = "google" ∨ provider = "github")
    (hex : findOneByEmail db u.email = some ex)
    (hnd : ex.linkedProviders.Nodup) :
    (signInCallback linkNew now db u provider pid).1 = true ∧
    (signInCallback linkNew now db u provider pid).2.2.1 = some ex.id ∧
    (signInCallback linkNew now db u provider pid).2.1.length = db.length ∧
    (signInCallback linkNew now db u provider pid).2.1.map UserRecord.id =
      db.map UserRecord.id ∧
    (signInCallback linkNew now db u provider pid).2.1.map UserRecord.groupId =
      db.map UserRecord.groupId ∧
    (∀ r ∈ (signInCallback linkNew now db u provider pid).2.1, r.id = ex.id →
      r.linkedProviders =
        (if provider ∈ ex.linkedProviders then ex.linkedProviders
         else ex.linkedProviders ++ [provider]) ∧
      r.linkedProviders.count provider = 1) ∧
    (∀ r ∈ db, r.id ≠ ex.id →
      r ∈ (signInCallback linkNew now db u provider pid).2.1) := by
  have hpb : (provider == "google" || provider == "github") = true := by
    rcases hprov with h | h <;> rw [h] <;> decide
  have hcall : signInCallback linkNew now db u provider pid =
      (true,
       db.map (fun r =>
         if r.id = ex.id then
           { r with
             linkedProviders := jsSetAdd ex.linkedProviders provider
             updatedAt := now
             lastSignIn := now
             image := if ex.avatarType == "default" && !(jsFalsyOpt u.image) then u.image
                      else r.image
             avatarType := if ex.avatarType == "default" && !(jsFalsyOpt u.image) then "oauth"
                           else r.avatarType }
         else r),
       some ex.id,
       [⟨toString ex.id, "security_oauth_added", "Linked " ++ provider ++ " account"⟩,
        ⟨toString ex.id, "auth_signin", "Successful sign in with " ++ provider⟩]) := by
    unfold signInCallback
    rw [hpb]
    simp only [if_true, hex]
  refine ⟨by rw [hcall], by rw [hcall], ?_, ?_, ?_, ?_, ?_⟩
  · rw [hcall]
    simp
  · rw [hcall]
    rw [List.map_map]
    apply List.map_congr_left
    intro r _
    by_cases h : r.id = ex.id <;> simp [h]
  · rw [hcall]
    rw [List.map_map]
    apply List.map_congr_left
    intro r _
    by_cases h : r.id = ex.id <;> simp [h]
  · rw [hcall]
    intro r hr hid
    simp only at hr
    obtain ⟨r₀, _hr₀, rfl⟩ := List.mem_map.mp hr
    by_cases h : r₀.id = ex.id
    · simp only [h, if_true]
      exact ⟨jsSetAdd_eq ex.linkedProviders provider hnd,
        jsSetAdd_count ex.linkedProviders provider hnd⟩
    · rw [if_neg h] at hid ⊢
      exact absurd hid h
  · rw [hcall]
    intro r hr hid
    simp only
    refine List.mem_map.mpr ⟨r, hr, ?_⟩
    rw [if_neg hid]

/-- An existing record registered via Google with GitHub already linked. -/
def oauthExistingSample : UserRecord :=
  { userSample with
    id := 4
    email := some "e@x.com"
    phoneNumber := none
    password := none
    registerSource := "google"
    twoFactorEnabled := false
    twoFactorSecret := none
    linkedProviders := ["github"] }

/-- A stand-in for the new-user linking path, never taken in the
instantiated scenarios. -/
def linkNewNone : List UserRecord → OAuthSignInUser → String → String →
    Option (List UserRecord × Nat) := fun _ _ _ _ => none

/-- Concrete instance of C6: Google sign-in with the email of an existing
record that already links GitHub. -/
theorem C6_oauth_existing_email_extends_providers_witness :
    (signInCallback linkNewNone 5 [oauthExistingSample] ⟨"e@x.com", "E", none⟩
      "google" "acct1").2.2.1 = some 4 ∧
    (signInCallback linkNewNone 5 [oauthExistingSample] ⟨"e@x.com", "E", none⟩
      "google" "acct1").2.1.length = 1 ∧
    (∀ r ∈ (signInCallback linkNewNone 5 [oauthExistingSample] ⟨"e@x.com", "E", none⟩
      "google" "acct1").2.1, r.id = 4 → r.linkedProviders.count "google" = 1) := by
  have h := C6_oauth_existing_email_extends_providers linkNewNone 5
    [oauthExistingSample] ⟨"e@x.com", "E", none⟩ "google" "acct1"
    oauthExistingSample (Or.inl rfl) rfl (by decide)
  exact ⟨h.2.1, h.2.2.1, fun r hr hid => (h.2.2.2.2.2.1 r hr hid).2⟩

theorem emailConflictB_comm (a b : UserRecord) :
    emailConflictB a b = emailConflictB b a := by
  unfold emailConflictB
  cases a.email <;> cases b.email <;> simp [beq_iff_eq]
  exact ⟨fun h => h.symm, fun h => h.symm⟩

theorem phoneConflictB_comm (a b : UserRecord) :
    phoneConflictB a b = phoneConflictB b a := by
  unfold phoneConflictB
  cases a.phoneNumber <;> cases b.phoneNumber <;> simp [beq_iff_eq]
  exact ⟨fun h => h.symm, fun h => h.symm⟩

theorem uniqueIdentifiers_map (db : List UserRecord) (f : UserRecord → UserRecord)
    (hf : ∀ x, (f x).email = x.email ∧ (f x).phoneNumber = x.phoneNumber)
    (h : uniqueIdentifiers db) : uniqueIdentifiers (db.map f) := by
  unfold uniqueIdentifiers at *
  refine List.Pairwise.map f ?_ h
  intro a b hab
  have hea : (f a).email = a.email := (hf a).1
  have heb : (f b).email = b.email := (hf b).1
  have hpa : (f a).phoneNumber = a.phoneNumber := (hf a).2
  have hpb : (f b).phoneNumber = b.phoneNumber := (hf b).2
  constructor
  · rw [emailConflictB, hea, heb]
    exact hab.1
  · rw [phoneConflictB, hpa, hpb]
    exact hab.2

/-- C5: uniqueness of identifiers across identity records, as enforced by
the unique sparse indexes of `setupDatabaseIndexes` (case-insensitive
collation on email, exact on phoneNumber).  In a store satisfying the
invariant: an insert accepted by the indexes preserves it, the linking
performed by the `signIn` callback preserves it (linking never touches
email or phoneNumber), and no two distinct active records share a
lower-cased email or a phone number. -/
theorem C5_identifier_uniqueness (db : List UserRecord)
    (hdb : uniqueIdentifiers db) :
    (∀ r db', insertUser db r = some db' → uniqueIdentifiers db') ∧
    (∀ linkNew now u provider pid ex, findOneByEmail db u.email = some ex →
      uniqueIdentifiers (signInCallback linkNew now db u provider pid).2.1) ∧
    (∀ i j (hi : i < db.length) (hj : j < db.length), i ≠ j →
      (db.get ⟨i, hi⟩).accountStatus = "active" →
      (db.get ⟨j, hj⟩).accountStatus = "active" →
      emailConflictB (db.get ⟨i, hi⟩) (db.get ⟨j, hj⟩) = false ∧
      phoneConflictB (db.get ⟨i, hi⟩) (db.get ⟨j, hj⟩) = false) := by
  refine ⟨?_, ?_, ?_⟩
  · intro r db' hins
    unfold insertUser at hins
    split at hins
    · cases hins
    · next hany =>
        cases hins
        have hok : ∀ x ∈ db, emailConflictB x r = false ∧ phoneConflictB x r = false := by
          intro x hx
          have hx2 : ¬ ((emailConflictB x r || phoneConflictB x r) = true) := by
            intro hcon
            exact hany (List.any_eq_true.mpr ⟨x, hx, hcon⟩)
          simp only [Bool.or_eq_true, not_or, Bool.not_eq_true] at hx2
          exact hx2
        unfold uniqueIdentifiers
        rw [List.pairwise_append]
        refine ⟨hdb, by simp, ?_⟩
        intro a ha b hb
        have hbr : b = r := by simpa using hb
        subst hbr
        exact hok a ha
  · intro linkNew now u provider pid ex hex
    unfold signInCallback
    by_cases hpb : (provider == "google" || provider == "github") = true
    · rw [hpb]
      simp only [if_true, hex]
      exact uniqueIdentifiers_map db _
        (fun x => by by_cases h : x.id = ex.id <;> simp [h]) hdb
    · rw [Bool.not_eq_true] at hpb
      rw [hpb]
      simp only [Bool.false_eq_true, if_false]
      exact hdb
  · intro i j hi hj hij _ _
    have hp := List.pairwise_iff_getElem.mp hdb
    rcases Nat.lt_or_ge i j with h | h
    · have := hp i j hi hj h
      simpa [List.get_eq_getElem] using this
    · have hji : j < i := Nat.lt_of_le_of_ne h (fun hq => hij hq.symm)
      have hrev := hp j i hj hi hji
      refine ⟨?_, ?_⟩
      · rw [List.get_eq_getElem, List.get_eq_getElem, emailConflictB_comm]
        exact hrev.1
      · rw [List.get_eq_getElem, List.get_eq_getElem, phoneConflictB_comm]
        exact hrev.2

/-- A fresh record with identifiers that conflict with no stored record. -/
def freshUserSample : UserRecord :=
  { userSample with
    id := 7
    email := some "fresh@x.com"
    phoneNumber := some "+15550000001" }

/-- Concrete instance of C5: a two-record store satisfying the invariant,
an accepted insert of a non-conflicting record, and the linking update of
a Google sign-in on the first record, both preserving the invariant. -/
theorem C5_identifier_uniqueness_witness :
    uniqueIdentifiers [userSample, oauthUserSample] ∧
    uniqueIdentifiers ([userSample, oauthUserSample] ++ [freshUserSample]) ∧
    uniqueIdentifiers (signInCallback linkNewNone 5 [userSample, oauthUserSample]
      ⟨"a@x.com", "A", none⟩ "google" "acct2").2.1 := by
  have hdb : uniqueIdentifiers [userSample, oauthUserSample] := by
    unfold uniqueIdentifiers
    decide
  have h := C5_identifier_uniqueness [userSample, oauthUserSample] hdb
  refine ⟨hdb, ?_, ?_⟩
  · exact h.1 freshUserSample ([userSample, oauthUserSample] ++ [freshUserSample]) rfl
  · exact h.2.1 linkNewNone 5 ⟨"a@x.com", "A", none⟩ "google" "acct2" userSample rfl
